import Mathlib

/-!
Shallow embedding of the frame-extraction engine of
`Lun-OS/Extract-frames-from-video-to-images` (`src/video_processor.py`),
together with theorems settling the specification claims.

Numeric modelling conventions:
* Python `float` values are modelled as exact rationals (`ℚ`); the claims under
  study are about the arithmetic structure of the code, not about binary
  floating-point rounding.
* Python `int(x)` on a real value truncates toward zero (`pyTrunc`); Python's
  float `%` is `pyMod` (sign of the divisor, used here with positive divisors).
* Python `int(s)` / `float(s)` string parsing is modelled on its core numeral
  forms (optional sign, decimal digits, optional fractional part); whitespace
  trimming, underscores, exponents and `inf`/`nan` are outside the model.
-/

set_option maxRecDepth 4000

namespace FrameExtract

attribute [local semireducible] Rat.add Rat.mul Rat.inv Rat.sub Rat.ofScientific

/-- Truncation toward zero: the behaviour of Python's `int()` on a real value. -/
def pyTrunc (q : ℚ) : ℤ := if 0 ≤ q then ⌊q⌋ else ⌈q⌉

/-- Python's float modulo `a % b`; for `b > 0` the result lies in `[0, b)`. -/
def pyMod (a b : ℚ) : ℚ := a - b * ⌊a / b⌋

/-- Decimal value of a list of digit characters (most significant first). -/
def digitsVal (l : List Char) : ℕ := l.foldl (fun a c => 10 * a + (c.toNat - 48)) 0

/-- Decimal rendering of a natural number, with explicit fuel so that the
recursion is structural; `natDigits` supplies sufficient fuel. -/
def natDigitsAux : ℕ → ℕ → List Char
  | 0, _ => []
  | f + 1, n =>
    if n < 10 then [Nat.digitChar n] else natDigitsAux f (n / 10) ++ [Nat.digitChar (n % 10)]

/-- Decimal digit characters of a natural number (e.g. `123 ↦ ['1','2','3']`). -/
def natDigits (n : ℕ) : List Char := natDigitsAux (n + 1) n

/-- Zero padding on the left to width `w`, as in Python's `f"{n:02d}"`. -/
def leftPad (w : ℕ) (l : List Char) : List Char := List.replicate (w - l.length) '0' ++ l

/-- Python `f"{n:0wd}"` rendering of an integer. -/
def fmtInt (w : ℕ) (n : ℤ) : List Char :=
  if n < 0 then '-' :: leftPad (w - 1) (natDigits n.natAbs) else leftPad w (natDigits n.natAbs)

/-- `VideoProcessor.frame_to_timestamp` (src/video_processor.py:64-86): frame
number to an `HH-MM-SS-mmm` label; non-positive fps yields the sentinel. -/
def frame_to_timestamp (fps : ℚ) (frame_number : ℤ) : String :=
  if fps ≤ 0 then "00-00-00-000"
  else
    let ts : ℚ := frame_number / fps
    let hours : ℤ := ⌊ts / 3600⌋
    let minutes : ℤ := ⌊pyMod ts 3600 / 60⌋
    let seconds : ℤ := pyTrunc (pyMod ts 60)
    let ms : ℤ := pyTrunc (pyMod ts 1 * 1000)
    String.mk (fmtInt 2 hours ++ '-' :: fmtInt 2 minutes ++ '-' :: fmtInt 2 seconds ++ '-' :: fmtInt 3 ms)

/-- The `'-' ↦ ':'` normalisation `timestamp_str.replace('-', ':')`. -/
def normChar (c : Char) : Char := if c = '-' then ':' else c

/-- Python `str.split(sep)` for a single-character separator: `"" ↦ [""]`,
`"a:b" ↦ ["a","b"]`, `":" ↦ ["",""]`. -/
def splitOnChar (sep : Char) : List Char → List (List Char)
  | [] => [[]]
  | c :: rest =>
    match splitOnChar sep rest with
    | [] => [[]]
    | p :: ps => if c = sep then [] :: p :: ps else (c :: p) :: ps

/-- Parse of a nonempty all-digit character list. -/
def parseDigits (l : List Char) : Option ℕ :=
  if l ≠ [] ∧ l.all Char.isDigit then some (digitsVal l) else none

/-- Model of Python `int(s)`: optional sign followed by decimal digits. -/
def pyParseInt (l : List Char) : Option ℤ :=
  if l.head? = some '-' then (parseDigits l.tail).map (fun n => -(n : ℤ))
  else if l.head? = some '+' then (parseDigits l.tail).map (fun n => (n : ℤ))
  else (parseDigits l).map (fun n => (n : ℤ))

/-- Unsigned part of Python `float(s)`: `digits`, `digits.`, `digits.digits`
or `.digits`. -/
def parseUFloat (l : List Char) : Option ℚ :=
  let ip := l.takeWhile Char.isDigit
  let rest := l.dropWhile Char.isDigit
  if rest = [] then
    if ip = [] then none else some ((digitsVal ip : ℕ) : ℚ)
  else if rest.head? = some '.' ∧ rest.tail.all Char.isDigit ∧ (ip ≠ [] ∨ rest.tail ≠ []) then
    some ((digitsVal ip : ℚ) + (digitsVal rest.tail : ℚ) / (10 : ℚ) ^ rest.tail.length)
  else none

/-- Model of Python `float(s)`: optional sign followed by `parseUFloat`. -/
def pyParseFloat (l : List Char) : Option ℚ :=
  if l.head? = some '-' then (parseUFloat l.tail).map (fun q => -q)
  else if l.head? = some '+' then parseUFloat l.tail
  else parseUFloat l

/-- `VideoProcessor.timestamp_to_frame` (src/video_processor.py:88-115):
normalises `'-'` to `':'`, splits, and if it finds at least three parts parses
hours/minutes as `int` and seconds as `float`, returning
`min(int(total_seconds * fps), total_frames - 1)`; every parse failure (and a
part count below three) yields frame `0`. -/
def timestamp_to_frame (fps : ℚ) (total_frames : ℤ) (timestamp_str : String) : ℤ :=
  match splitOnChar ':' (timestamp_str.data.map normChar) with
  | p0 :: p1 :: p2 :: _ =>
    match pyParseInt p0, pyParseInt p1, pyParseFloat p2 with
    | some hrs, some mins, some secs =>
      min (pyTrunc (((hrs : ℚ) * 3600 + (mins : ℚ) * 60 + secs) * fps)) (total_frames - 1)
    | _, _, _ => 0
  | _ => 0

/-- The claim's "replace hyphens with colons" applied to a label. -/
def colonForm (s : String) : String := String.mk (s.data.map normChar)

/-- `validate_time_format` (src/video_processor.py:555-581): exactly three
parts after normalisation, hours/minutes integers, seconds float, with
`0 ≤ h ≤ 23`, `0 ≤ m ≤ 59`, `0 ≤ s < 60`. -/
def validate_time_format (time_str : String) : Bool :=
  match splitOnChar ':' (time_str.data.map normChar) with
  | [p0, p1, p2] =>
    match pyParseInt p0, pyParseInt p1, pyParseFloat p2 with
    | some h, some m, some s =>
      decide (0 ≤ h) && decide (h ≤ 23) && decide (0 ≤ m) && decide (m ≤ 59) &&
        decide (0 ≤ s) && decide (s < 60)
    | _, _, _ => false
  | _ => false

/-! ## Direct (OpenCV) extraction backend -/

/-- Outcome of one loop iteration's interaction with the environment: the
`cap.read()` either fails, or succeeds and — if a save is attempted — the save
either succeeds or fails. -/
inductive ReadOutcome
  | fail
  | ok (saveOk : Bool)
  deriving DecidableEq, Repr

/-- The counters returned by `extract_frames` (src/video_processor.py:286-295;
the timing and directory fields carry no logical content and are omitted). -/
structure ExtractStats where
  total_frames_to_extract : ℕ
  extracted_count : ℕ
  failed_count : ℕ
  start_frame : ℕ
  end_frame : ℕ
  frame_interval : ℕ
  deriving DecidableEq, Repr

/-- `len(range(a, b, step))` for `step ≥ 1` (src/video_processor.py:165). -/
def pyRangeLen (a b step : ℕ) : ℕ := (b - a + step - 1) / step

/-- The selection test of the extraction loop (src/video_processor.py:218):
`(i - start_frame) % max(1, frame_interval) == 0`. -/
def selectedB (s k i : ℕ) : Bool := decide ((i - s) % max 1 k = 0)

/-- One iteration of the loop body (src/video_processor.py:210-261): a failed
read counts as failed regardless of selection; a successful read on a selected
index attempts a save, incrementing the extracted or failed counter. -/
def extractStep (s k : ℕ) (o : ℕ → ReadOutcome) (acc : ℕ × ℕ) (i : ℕ) : ℕ × ℕ :=
  match o i with
  | .fail => (acc.1, acc.2 + 1)
  | .ok sv =>
    if selectedB s k i then (if sv then (acc.1 + 1, acc.2) else (acc.1, acc.2 + 1)) else acc

/-- The loop indices `start_frame, ..., end_frame` visited by the while loop. -/
def frameIdxList (s e : ℕ) : List ℕ := List.range' s (e + 1 - s)

/-- The direct backend of `extract_frames` after range computation
(src/video_processor.py:164-295), parametrised by the per-frame outcomes; the
threaded and unthreaded paths accumulate the same totals, so one fold models
both. -/
def extract_frames_core (s e k : ℕ) (o : ℕ → ReadOutcome) : ExtractStats :=
  let total := pyRangeLen s (e + 1) k
  let c := (frameIdxList s e).foldl (extractStep s k o) (0, 0)
  ⟨total, c.1, c.2, s, e, k⟩

/-- `extract_frames` with the direct backend, including the range guard
(src/video_processor.py:161-162): `start_frame >= end_frame` raises. -/
def extract_frames (s e k : ℕ) (o : ℕ → ReadOutcome) : Except String ExtractStats :=
  if e ≤ s then Except.error "invalid_range" else Except.ok (extract_frames_core s e k o)

/-- The indices at which the loop attempts a save when every read succeeds:
the literal translation of the loop's selection test over the visited range. -/
def attemptedSaves (s e k : ℕ) : List ℕ := (frameIdxList s e).filter (selectedB s k)

/-- Number of loop iterations whose read fails at a NON-selected index; these
iterations increment `failed_count` although the frame was never planned. -/
def readFailNonSelected (s e k : ℕ) (o : ℕ → ReadOutcome) : ℕ :=
  ((frameIdxList s e).filter (fun i => decide (o i = .fail) && !selectedB s k i)).length

/-! ## Process-filter (ffmpeg) backend -/

/-- The files produced by the external process, as `(ordinal, frameIndex)`
pairs in sorted order, for a sub-range whose frames are `s..e` and stride `k`.
Models the documented contract of the command built at
src/video_processor.py:324-373: the filter `select=not(mod(n,max(1,k)))` keeps
the frames of sub-range-relative index `n ≡ 0 (mod max(1,k))` — absolute index
`s + j*max(1,k)` for the `j`-th kept frame — while the `image2` numbered
output pattern with `-start_number s` names the kept frames consecutively
`s, s+1, s+2, ...` in output order. -/
def ffmpeg_produced_files (s e k : ℕ) : List (ℕ × ℕ) :=
  let k1 := max 1 k
  (List.range ((e - s) / k1 + 1)).map (fun j => (s + j, s + j * k1))

/-- The rename pass of `_extract_frames_ffmpeg` (src/video_processor.py:384-401):
each produced file's ordinal is parsed back and the file is renamed to
`frame_to_timestamp(ordinal)`; the pair keeps the index of the frame the file
actually contains. -/
def ffmpeg_renamed_files (fps : ℚ) (s e k : ℕ) : List (String × ℕ) :=
  (ffmpeg_produced_files s e k).map (fun oc => (frame_to_timestamp fps oc.1, oc.2))

/-- Counters returned by `_extract_frames_ffmpeg` (src/video_processor.py:384-419)
when the process succeeds: every produced file is renamed. -/
def ffmpeg_stats (s e k : ℕ) : ExtractStats :=
  ⟨pyRangeLen s (e + 1) k, (ffmpeg_produced_files s e k).length, 0, s, e, k⟩

/-! ## Backend dispatch -/

/-- The backend chosen once per call (src/video_processor.py:169-172). -/
def chosen_backend (backend : String) (ffmpegAvail : Bool) : String :=
  if backend = "auto" then (if ffmpegAvail then "ffmpeg" else "opencv") else backend

/-- `extract_frames` with its backend dispatch (src/video_processor.py:144-192):
range guard, then the backend is resolved once and the call is routed; the
ffmpeg path re-checks availability (src/video_processor.py:315-316) and any
chosen value other than `"ffmpeg"` runs the direct loop.  The returned tag
records which backend produced the result. -/
def extract_frames_backend (backend : String) (ffmpegAvail : Bool) (s e k : ℕ)
    (o : ℕ → ReadOutcome) : Except String (String × ExtractStats) :=
  if e ≤ s then Except.error "invalid_range"
  else
    let cb := chosen_backend backend ffmpegAvail
    if cb = "ffmpeg" then
      if ffmpegAvail then Except.ok ("ffmpeg", ffmpeg_stats s e k)
      else Except.error "ffmpeg_missing"
    else Except.ok ("opencv", extract_frames_core s e k o)

/-! ## Output format handling (direct backend) -/

/-- Python `str.lower()` on the ASCII range (the supported format names are
ASCII). -/
def strLower (s : String) : String := String.mk (s.data.map Char.toLower)

/-- `ext = (output_format or 'png').lower()` (src/video_processor.py:221);
Python's `or` takes the fallback exactly on falsy values, i.e. the empty
string. -/
def outputExt (output_format : String) : String :=
  strLower (if output_format = "" then "png" else output_format)

/-- The filename generated for a selected frame (src/video_processor.py:220-223). -/
def frameFilename (fps : ℚ) (output_format : String) (i : ℤ) : String :=
  frame_to_timestamp fps i ++ "." ++ outputExt output_format

/-- The encoder dispatch of `save_and_report` (src/video_processor.py:225-246):
the format PIL is asked to write for a given extension; an unknown extension
falls back to PNG and still reports success. -/
def save_and_report_format (ext : String) : String :=
  if ext = "png" then "PNG"
  else if ext = "jpg" ∨ ext = "jpeg" then "JPEG"
  else if ext = "webp" then "WEBP"
  else "PNG"

/-! ## Preview cursor model (`get_frame_at_seconds_fast`) -/

/-- The decode cursor of an opened `cv2.VideoCapture`: `pos` is
`CAP_PROP_POS_FRAMES`, the 0-based index of the frame to be decoded next. -/
structure CapState where
  pos : ℕ
  deriving DecidableEq, Repr

/-- `cap.grab()`: decodes (and discards) the frame at `pos`, advancing the
cursor. -/
def capGrab (st : CapState) : CapState := ⟨st.pos + 1⟩

/-- `cap.read()`: returns the frame at `pos` (its index, in this model) and
advances the cursor. -/
def capRead (st : CapState) : ℕ × CapState := (st.pos, ⟨st.pos + 1⟩)

/-- `cap.set(CAP_PROP_POS_FRAMES, t)`. -/
def capSeek (t : ℕ) (_st : CapState) : CapState := ⟨t⟩

/-- The frame index `int(max(0.0, seconds) * fps)` targeted by the preview
fetch (src/video_processor.py:475). -/
def targetFrame (fps seconds : ℚ) : ℕ := (pyTrunc (max 0 seconds * fps)).toNat

/-- `get_frame_at_seconds_fast` (src/video_processor.py:461-498) on the cursor
model: returns the index of the frame the call decodes and the final cursor.
For a forward jump within `int(max(1.0, fps*2.0))` it grabs
`max(0, diff - 1)` times and reads; otherwise it seeks to the target and
reads. -/
def get_frame_at_seconds_fast (fps : ℚ) (st : CapState) (seconds : ℚ) : ℕ × CapState :=
  let target := targetFrame fps seconds
  let diff : ℤ := (target : ℤ) - (st.pos : ℤ)
  let threshold : ℤ := pyTrunc (max 1 (fps * 2))
  if 0 < diff ∧ diff ≤ threshold then
    let steps := (diff - 1).toNat
    capRead (capGrab^[steps] st)
  else
    capRead (capSeek target st)

/-- The property of §7 of the spec, written independently of
`validate_time_format`: three colon- or hyphen-delimited numeric parts with
hours in `[0,23]`, minutes in `[0,59]`, seconds in `[0,60)`. -/
def valid_time_spec (ts : String) : Prop :=
  ∃ p0 p1 p2 h m s, splitOnChar ':' (ts.data.map normChar) = [p0, p1, p2] ∧
    pyParseInt p0 = some h ∧ pyParseInt p1 = some m ∧ pyParseFloat p2 = some s ∧
    0 ≤ h ∧ h ≤ 23 ∧ 0 ≤ m ∧ m ≤ 59 ∧ 0 ≤ s ∧ s < 60

/-! ## Lemmas: digit rendering and numeric parsing -/

theorem digitsVal_append (l : List Char) (c : Char) :
    digitsVal (l ++ [c]) = 10 * digitsVal l + (c.toNat - 48) := by
  simp [digitsVal, List.foldl_append]

theorem digitChar_isDigit (d : ℕ) (h : d < 10) : (Nat.digitChar d).isDigit = true := by
  interval_cases d <;> decide

theorem digitChar_val (d : ℕ) (h : d < 10) : (Nat.digitChar d).toNat - 48 = d := by
  interval_cases d <;> decide

theorem natDigitsAux_spec (f : ℕ) :
    ∀ n, n < f → natDigitsAux f n ≠ [] ∧ (natDigitsAux f n).all Char.isDigit = true ∧
      digitsVal (natDigitsAux f n) = n := by
  induction f with
  | zero => omega
  | succ f ih =>
    intro n hn
    by_cases h10 : n < 10
    · refine ⟨by simp [natDigitsAux, h10], ?_, ?_⟩
      · simp [natDigitsAux, h10, digitChar_isDigit n h10]
      · simp [natDigitsAux, h10, digitsVal, digitChar_val n h10]
    · have hdiv : n / 10 < f := by
        have h1 : n / 10 < n := Nat.div_lt_self (by omega) (by omega)
        omega
      obtain ⟨hne, hall, hval⟩ := ih (n / 10) hdiv
      have hmod : n % 10 < 10 := Nat.mod_lt _ (by omega)
      refine ⟨by simp [natDigitsAux, h10], ?_, ?_⟩
      · simp [natDigitsAux, h10, List.all_append, hall, digitChar_isDigit _ hmod]
      · rw [show natDigitsAux (f + 1) n
            = natDigitsAux f (n / 10) ++ [Nat.digitChar (n % 10)] by simp [natDigitsAux, h10]]
        rw [digitsVal_append, hval, digitChar_val _ hmod]
        omega

theorem natDigits_ne_nil (n : ℕ) : natDigits n ≠ [] :=
  (natDigitsAux_spec (n + 1) n (Nat.lt_succ_self n)).1

theorem natDigits_all_digit (n : ℕ) : (natDigits n).all Char.isDigit = true :=
  (natDigitsAux_spec (n + 1) n (Nat.lt_succ_self n)).2.1

theorem digitsVal_natDigits (n : ℕ) : digitsVal (natDigits n) = n :=
  (natDigitsAux_spec (n + 1) n (Nat.lt_succ_self n)).2.2

theorem digitsVal_replicate_zero_append (k : ℕ) (l : List Char) :
    digitsVal (List.replicate k '0' ++ l) = digitsVal l := by
  induction k with
  | zero => rfl
  | succ k ih =>
    have : List.replicate (k + 1) '0' ++ l = '0' :: (List.replicate k '0' ++ l) := by
      simp [List.replicate_succ]
    rw [this]
    simpa [digitsVal] using ih

theorem replicate_zero_all_digit (k : ℕ) : (List.replicate k '0').all Char.isDigit = true := by
  induction k with
  | zero => rfl
  | succ k ih => simp [List.replicate_succ, ih]

theorem leftPad_all_digit (w : ℕ) (l : List Char) (h : l.all Char.isDigit = true) :
    (leftPad w l).all Char.isDigit = true := by
  simp [leftPad, List.all_append, replicate_zero_all_digit, h]

theorem leftPad_ne_nil (w : ℕ) (l : List Char) (h : l ≠ []) : leftPad w l ≠ [] := by
  simp [leftPad, h]

theorem digitsVal_leftPad (w : ℕ) (l : List Char) :
    digitsVal (leftPad w l) = digitsVal l :=
  digitsVal_replicate_zero_append _ l

theorem isDigit_ne_dash {c : Char} (h : c.isDigit = true) : c ≠ '-' := by
  rintro rfl; simp at h

theorem isDigit_ne_plus {c : Char} (h : c.isDigit = true) : c ≠ '+' := by
  rintro rfl; simp at h

theorem isDigit_ne_colon {c : Char} (h : c.isDigit = true) : c ≠ ':' := by
  rintro rfl; simp at h

theorem isDigit_ne_dot {c : Char} (h : c.isDigit = true) : c ≠ '.' := by
  rintro rfl; simp at h

theorem pyParseInt_digits (l : List Char) (hne : l ≠ []) (hall : l.all Char.isDigit = true) :
    pyParseInt l = some (digitsVal l) := by
  obtain ⟨c, l', rfl⟩ := List.exists_cons_of_ne_nil hne
  have hc : c.isDigit = true := by
    have := List.all_eq_true.mp hall c (by simp)
    simpa using this
  have h1 : (c :: l').head? ≠ some '-' := by
    simp [isDigit_ne_dash hc]
  have h2 : (c :: l').head? ≠ some '+' := by
    simp [isDigit_ne_plus hc]
  simp only [pyParseInt, if_neg h1, if_neg h2, parseDigits, hall]
  simp

theorem takeWhile_all_eq_self (l : List Char) (hall : l.all Char.isDigit = true) :
    l.takeWhile Char.isDigit = l := by
  induction l with
  | nil => rfl
  | cons c l' ih =>
    simp only [List.all_cons, Bool.and_eq_true] at hall
    simp [List.takeWhile_cons, hall.1, ih hall.2]

theorem dropWhile_all_eq_nil (l : List Char) (hall : l.all Char.isDigit = true) :
    l.dropWhile Char.isDigit = [] := by
  induction l with
  | nil => rfl
  | cons c l' ih =>
    simp only [List.all_cons, Bool.and_eq_true] at hall
    simp [List.dropWhile_cons, hall.1, ih hall.2]

theorem parseUFloat_digits (l : List Char) (hne : l ≠ []) (hall : l.all Char.isDigit = true) :
    parseUFloat l = some ((digitsVal l : ℕ) : ℚ) := by
  simp [parseUFloat, takeWhile_all_eq_self l hall, dropWhile_all_eq_nil l hall, hne]

theorem pyParseFloat_digits (l : List Char) (hne : l ≠ []) (hall : l.all Char.isDigit = true) :
    pyParseFloat l = some ((digitsVal l : ℕ) : ℚ) := by
  obtain ⟨c, l', rfl⟩ := List.exists_cons_of_ne_nil hne
  have hc : c.isDigit = true := by
    have := List.all_eq_true.mp hall c (by simp)
    simpa using this
  have h1 : (c :: l').head? ≠ some '-' := by
    simp [isDigit_ne_dash hc]
  have h2 : (c :: l').head? ≠ some '+' := by
    simp [isDigit_ne_plus hc]
  rw [pyParseFloat, if_neg h1, if_neg h2, parseUFloat_digits _ hne hall]

/-! ## Lemmas: splitting -/

theorem splitOnChar_ne_nil (sep : Char) (l : List Char) : splitOnChar sep l ≠ [] := by
  cases l with
  | nil => simp [splitOnChar]
  | cons c rest =>
    simp only [splitOnChar]
    rcases h : splitOnChar sep rest with _ | ⟨p, ps⟩
    · simp
    · by_cases hc : c = sep <;> simp [hc]

theorem splitOnChar_no_sep (sep : Char) (l : List Char) (h : sep ∉ l) :
    splitOnChar sep l = [l] := by
  induction l with
  | nil => rfl
  | cons c rest ih =>
    have hc : c ≠ sep := by rintro rfl; exact h (by simp)
    have hrest : sep ∉ rest := fun hm => h (by simp [hm])
    simp [splitOnChar, ih hrest, hc]

theorem splitOnChar_append (sep : Char) (l1 l2 : List Char) (h : sep ∉ l1) :
    splitOnChar sep (l1 ++ sep :: l2) = l1 :: splitOnChar sep l2 := by
  induction l1 with
  | nil =>
    simp only [List.nil_append, splitOnChar]
    rcases h2 : splitOnChar sep l2 with _ | ⟨p, ps⟩
    · exact absurd h2 (splitOnChar_ne_nil sep l2)
    · simp
  | cons c rest ih =>
    have hc : c ≠ sep := by rintro rfl; exact h (by simp)
    have hrest : sep ∉ rest := fun hm => h (by simp [hm])
    simp only [List.cons_append, splitOnChar, List.append_eq]
    rw [ih hrest]
    simp [hc]

/-! ## Lemmas: pyTrunc, pyMod and the H:M:S decomposition -/

theorem pyTrunc_of_nonneg (q : ℚ) (h : 0 ≤ q) : pyTrunc q = ⌊q⌋ := if_pos h

theorem pyMod_nonneg (a b : ℚ) (hb : 0 < b) : 0 ≤ pyMod a b := by
  have h := Int.sub_floor_div_mul_nonneg a hb
  rw [pyMod]
  linarith [h]

theorem pyMod_lt (a b : ℚ) (hb : 0 < b) : pyMod a b < b := by
  have h := Int.sub_floor_div_mul_lt a hb
  rw [pyMod]
  linarith [h]

/-- The integer H:M:S fields computed by `frame_to_timestamp` recompose to the
whole-second part of the time value. -/
theorem hms_decomp (ts : ℚ) :
    3600 * ⌊ts / 3600⌋ + 60 * ⌊pyMod ts 3600 / 60⌋ + ⌊pyMod ts 60⌋ = ⌊ts⌋ := by
  have h1 : pyMod ts 3600 / 60 = ts / 60 - ((60 * ⌊ts / 3600⌋ : ℤ) : ℚ) := by
    rw [pyMod]; push_cast; ring
  have h2 : pyMod ts 60 = ts - ((60 * ⌊ts / 60⌋ : ℤ) : ℚ) := by
    rw [pyMod]; push_cast; ring
  rw [h1, h2, Int.floor_sub_int, Int.floor_sub_int]
  ring

/-! ## Lemmas: rendered fields parse back to their values -/

theorem fmtInt_all_digit (w : ℕ) (n : ℤ) (hn : 0 ≤ n) :
    (fmtInt w n).all Char.isDigit = true := by
  rw [fmtInt, if_neg (not_lt.mpr hn)]
  exact leftPad_all_digit _ _ (natDigits_all_digit _)

theorem fmtInt_ne_nil (w : ℕ) (n : ℤ) (hn : 0 ≤ n) : fmtInt w n ≠ [] := by
  rw [fmtInt, if_neg (not_lt.mpr hn)]
  exact leftPad_ne_nil _ _ (natDigits_ne_nil _)

theorem pyParseInt_fmtInt (w : ℕ) (n : ℤ) (hn : 0 ≤ n) : pyParseInt (fmtInt w n) = some n := by
  rw [fmtInt, if_neg (not_lt.mpr hn),
    pyParseInt_digits _ (leftPad_ne_nil _ _ (natDigits_ne_nil _))
      (leftPad_all_digit _ _ (natDigits_all_digit _)),
    digitsVal_leftPad, digitsVal_natDigits]
  simp [Int.natAbs_of_nonneg hn]

theorem pyParseFloat_fmtInt (w : ℕ) (n : ℤ) (hn : 0 ≤ n) :
    pyParseFloat (fmtInt w n) = some ((n : ℚ)) := by
  rw [fmtInt, if_neg (not_lt.mpr hn),
    pyParseFloat_digits _ (leftPad_ne_nil _ _ (natDigits_ne_nil _))
      (leftPad_all_digit _ _ (natDigits_all_digit _)),
    digitsVal_leftPad, digitsVal_natDigits]
  congr 1
  rw [Int.cast_natAbs]
  exact_mod_cast abs_of_nonneg hn

/-! ## Lemmas: normalisation and the label's split -/

theorem normChar_dash : normChar '-' = ':' := rfl

theorem normChar_colon : normChar ':' = ':' := rfl

theorem map_normChar_all_digit (l : List Char) (h : l.all Char.isDigit = true) :
    l.map normChar = l := by
  induction l with
  | nil => rfl
  | cons c l' ih =>
    simp only [List.all_cons, Bool.and_eq_true] at h
    simp only [List.map_cons, ih h.2, List.cons.injEq, and_true]
    exact if_neg (isDigit_ne_dash h.1)

theorem colon_not_mem_of_all_digit (l : List Char) (h : l.all Char.isDigit = true) :
    ':' ∉ l := by
  intro hm
  exact absurd (List.all_eq_true.mp h ':' hm) (by decide)

/-- The round trip of Claim C3 computed in full: render frame `i` as a label,
turn hyphens into colons, and parse it back.  The millisecond field is the
label's fourth part and `timestamp_to_frame` reads only the first three, so
the result is the clamped first frame of the whole second containing `i`. -/
theorem timestamp_roundtrip (fps : ℚ) (hfps : 0 < fps) (n : ℤ) (hn : 0 ≤ n) (total : ℤ) :
    timestamp_to_frame fps total (colonForm (frame_to_timestamp fps n))
      = min ⌊((⌊(n : ℚ) / fps⌋ : ℚ) * fps)⌋ (total - 1) := by
  have hfps' : ¬ fps ≤ 0 := not_le.mpr hfps
  set ts : ℚ := (n : ℚ) / fps with hts_def
  have hts : 0 ≤ ts := div_nonneg (by exact_mod_cast hn) (le_of_lt hfps)
  have hH : (0 : ℤ) ≤ ⌊ts / 3600⌋ := Int.floor_nonneg.mpr (by positivity)
  have hMq : 0 ≤ pyMod ts 3600 / 60 := div_nonneg (pyMod_nonneg ts 3600 (by norm_num)) (by norm_num)
  have hM : (0 : ℤ) ≤ ⌊pyMod ts 3600 / 60⌋ := Int.floor_nonneg.mpr hMq
  have hSq : 0 ≤ pyMod ts 60 := pyMod_nonneg ts 60 (by norm_num)
  have hS : (0 : ℤ) ≤ ⌊pyMod ts 60⌋ := Int.floor_nonneg.mpr hSq
  have hMSq : 0 ≤ pyMod ts 1 * 1000 := mul_nonneg (pyMod_nonneg ts 1 one_pos) (by norm_num)
  have hMS : (0 : ℤ) ≤ ⌊pyMod ts 1 * 1000⌋ := Int.floor_nonneg.mpr hMSq
  have hlabel : frame_to_timestamp fps n
      = String.mk (fmtInt 2 ⌊ts / 3600⌋ ++ '-' :: fmtInt 2 ⌊pyMod ts 3600 / 60⌋ ++ '-' ::
          fmtInt 2 ⌊pyMod ts 60⌋ ++ '-' :: fmtInt 3 ⌊pyMod ts 1 * 1000⌋) := by
    simp only [frame_to_timestamp, if_neg hfps', pyTrunc_of_nonneg _ hSq,
      pyTrunc_of_nonneg _ hMSq, ← hts_def]
  have hA := fmtInt_all_digit 2 _ hH
  have hB := fmtInt_all_digit 2 _ hM
  have hC := fmtInt_all_digit 2 _ hS
  have hD := fmtInt_all_digit 3 _ hMS
  have hdata : (colonForm (frame_to_timestamp fps n)).data.map normChar
      = fmtInt 2 ⌊ts / 3600⌋ ++ ':' :: (fmtInt 2 ⌊pyMod ts 3600 / 60⌋ ++ ':' ::
          (fmtInt 2 ⌊pyMod ts 60⌋ ++ ':' :: fmtInt 3 ⌊pyMod ts 1 * 1000⌋)) := by
    rw [hlabel]
    simp only [colonForm, List.map_append, List.map_cons, normChar_dash, normChar_colon,
      map_normChar_all_digit _ hA, map_normChar_all_digit _ hB,
      map_normChar_all_digit _ hC, map_normChar_all_digit _ hD, List.append_assoc,
      List.cons_append]
  rw [timestamp_to_frame, hdata]
  rw [splitOnChar_append ':' _ _ (colon_not_mem_of_all_digit _ hA),
    splitOnChar_append ':' _ _ (colon_not_mem_of_all_digit _ hB),
    splitOnChar_append ':' _ _ (colon_not_mem_of_all_digit _ hC),
    splitOnChar_no_sep ':' _ (colon_not_mem_of_all_digit _ hD)]
  simp only [pyParseInt_fmtInt 2 _ hH, pyParseInt_fmtInt 2 _ hM, pyParseFloat_fmtInt 2 _ hS]
  have htotal : (((⌊ts / 3600⌋ : ℤ) : ℚ) * 3600 + ((⌊pyMod ts 3600 / 60⌋ : ℤ) : ℚ) * 60 +
      ((⌊pyMod ts 60⌋ : ℤ) : ℚ)) = ((⌊ts⌋ : ℤ) : ℚ) := by
    rw [← hms_decomp ts]
    push_cast
    ring
  rw [htotal]
  rw [pyTrunc_of_nonneg _ (mul_nonneg (by exact_mod_cast Int.floor_nonneg.mpr hts) hfps.le)]

/-! ## Lemmas: the selection lists of the extraction loop -/

theorem range'_eq_map_mul (c : ℕ) :
    ∀ s k, List.range' s c k = (List.range c).map (fun j => s + j * k) := by
  induction c with
  | zero => intro s k; rfl
  | succ c ih =>
    intro s k
    have h0 : List.range' s (c + 1) k = s :: List.range' (s + k) c k := rfl
    rw [h0, List.range_succ_eq_map, List.map_cons, List.map_map, ih (s + k) k]
    have hf : ((fun j => s + j * k) ∘ Nat.succ) = fun j => (s + k) + j * k := by
      funext j
      simp only [Function.comp_apply, Nat.succ_mul]
      ring
    rw [hf]
    simp

theorem filter_mod_range (k : ℕ) (hk : 0 < k) :
    ∀ n, (List.range n).filter (fun i => decide (i % k = 0))
      = (List.range ((n + k - 1) / k)).map (· * k) := by
  intro n
  induction n with
  | zero =>
    have h0 : (0 + k - 1) / k = 0 := by
      have e3 : 0 + k - 1 = k - 1 := by omega
      rw [e3]
      exact Nat.div_eq_of_lt (by omega)
    rw [h0]
    rfl
  | succ n ih =>
    have hq : k * (n / k) + n % k = n := Nat.div_add_mod n k
    have hr : n % k < k := Nat.mod_lt n hk
    set q := n / k with hq_def
    set r := n % k with hr_def
    rw [List.range_succ, List.filter_append, ih]
    have hnew : (n + 1 + k - 1) / k = q + (r + k) / k := by
      have e1 : n + 1 + k - 1 = k * q + (r + k) := by omega
      rw [e1, Nat.mul_add_div hk]
    have hold : (n + k - 1) / k = q + (r + k - 1) / k := by
      have e1 : n + k - 1 = k * q + (r + k - 1) := by omega
      rw [e1, Nat.mul_add_div hk]
    by_cases hmod : r = 0
    · have hold' : (n + k - 1) / k = q := by
        have hdiv0 : (r + k - 1) / k = 0 := by
          have e3 : r + k - 1 = k - 1 := by omega
          rw [e3]
          exact Nat.div_eq_of_lt (by omega)
        rw [hold, hdiv0]
        omega
      have hnew' : (n + 1 + k - 1) / k = q + 1 := by
        have hdiv1 : (r + k) / k = 1 := by
          have e3 : r + k = k := by omega
          rw [e3]
          exact Nat.div_self hk
        rw [hnew, hdiv1]
      have hmodn : n % k = 0 := hmod
      have hfn : List.filter (fun i => decide (i % k = 0)) [n] = [n] := by
        simp [List.filter, hmodn]
      have heq : n = q * k := by
        have hcomm : q * k = k * q := Nat.mul_comm q k
        omega
      rw [hold', hnew', hfn, List.range_succ, List.map_append]
      simp only [List.map_cons, List.map_nil]
      rw [heq]
    · have hold' : (n + k - 1) / k = q + 1 := by
        have hdiv1 : (r + k - 1) / k = 1 := by
          have e2 : r + k - 1 = (r - 1) + k := by omega
          rw [e2, Nat.add_div_right _ hk, Nat.div_eq_of_lt (by omega : r - 1 < k)]
        rw [hold, hdiv1]
      have hnew' : (n + 1 + k - 1) / k = q + 1 := by
        have hdiv1 : (r + k) / k = 1 := by
          rw [Nat.add_div_right _ hk, Nat.div_eq_of_lt hr]
        rw [hnew, hdiv1]
      have hmodn : ¬ n % k = 0 := hmod
      have hfn : List.filter (fun i => decide (i % k = 0)) [n] = [] := by
        simp [List.filter, hmodn]
      rw [hold', hnew', hfn, List.append_nil]

theorem pyRangeLen_eq (s e k : ℕ) (hse : s ≤ e) (hk : 1 ≤ k) :
    pyRangeLen s (e + 1) k = (e - s) / k + 1 := by
  rw [pyRangeLen]
  have e1 : e + 1 - s + k - 1 = (e - s) + k := by omega
  rw [e1, Nat.add_div_right _ hk]

theorem attemptedSaves_eq (s e k : ℕ) (hse : s ≤ e) (hk : 1 ≤ k) :
    attemptedSaves s e k = List.range' s ((e - s) / k + 1) k := by
  have hmax : max 1 k = k := Nat.max_eq_right hk
  rw [attemptedSaves, frameIdxList, List.range'_eq_map_range, List.filter_map]
  have hcong : ((selectedB s k) ∘ (s + ·)) = fun j => decide (j % k = 0) := by
    funext j
    simp [selectedB, Function.comp, hmax, Nat.add_sub_cancel_left]
  rw [hcong, filter_mod_range k (by omega), List.map_map]
  have e1 : (e + 1 - s + k - 1) / k = (e - s) / k + 1 := by
    have e2 : e + 1 - s + k - 1 = (e - s) + k := by omega
    rw [e2, Nat.add_div_right _ hk]
  rw [e1, range'_eq_map_mul]
  congr 1

theorem countP_selected (s e k : ℕ) (hse : s ≤ e) (hk : 1 ≤ k) :
    (frameIdxList s e).countP (selectedB s k) = (e - s) / k + 1 := by
  rw [List.countP_eq_length_filter]
  have := attemptedSaves_eq s e k hse hk
  rw [attemptedSaves] at this
  rw [this, List.length_range']

/-! ## Lemmas: the extraction loop's counters -/

theorem foldl_extractStep (s k : ℕ) (o : ℕ → ReadOutcome) :
    ∀ (l : List ℕ) (a b : ℕ),
      l.foldl (extractStep s k o) (a, b)
        = (a + l.countP (fun i => decide (o i = .ok true) && selectedB s k i),
           b + l.countP (fun i =>
             decide (o i = .fail) || (decide (o i = .ok false) && selectedB s k i))) := by
  intro l
  induction l with
  | nil => intro a b; simp
  | cons i l' ih =>
    intro a b
    rw [List.foldl_cons]
    rcases ho : o i with _ | sv
    · rw [show extractStep s k o (a, b) i = (a, b + 1) by simp [extractStep, ho]]
      rw [ih]
      simp [List.countP_cons, ho]
      omega
    · by_cases hsel : selectedB s k i = true
      · cases sv
        · rw [show extractStep s k o (a, b) i = (a, b + 1) by simp [extractStep, ho, hsel]]
          rw [ih]
          simp [List.countP_cons, ho, hsel]
          omega
        · rw [show extractStep s k o (a, b) i = (a + 1, b) by simp [extractStep, ho, hsel]]
          rw [ih]
          simp [List.countP_cons, ho, hsel]
          omega
      · rw [show extractStep s k o (a, b) i = (a, b) by simp [extractStep, ho, hsel]]
        rw [ih]
        simp [List.countP_cons, ho, hsel]

theorem countP_saved_failed (s k : ℕ) (o : ℕ → ReadOutcome) :
    ∀ l : List ℕ,
      l.countP (fun i => decide (o i = .ok true) && selectedB s k i)
        + l.countP (fun i =>
            decide (o i = .fail) || (decide (o i = .ok false) && selectedB s k i))
      = l.countP (selectedB s k)
        + l.countP (fun i => decide (o i = .fail) && !selectedB s k i) := by
  intro l
  induction l with
  | nil => simp
  | cons i l' ih =>
    simp only [List.countP_cons]
    rcases ho : o i with _ | sv
    · by_cases hsel : selectedB s k i = true <;> simp [ho, hsel] <;> omega
    · cases sv <;> by_cases hsel : selectedB s k i = true <;> simp [ho, hsel] <;> omega

theorem extract_frames_core_counts (s e k : ℕ) (o : ℕ → ReadOutcome) :
    extract_frames_core s e k o
      = ⟨pyRangeLen s (e + 1) k,
         (frameIdxList s e).countP (fun i => decide (o i = .ok true) && selectedB s k i),
         (frameIdxList s e).countP (fun i =>
           decide (o i = .fail) || (decide (o i = .ok false) && selectedB s k i)),
         s, e, k⟩ := by
  simp only [extract_frames_core]
  rw [foldl_extractStep]
  simp

/-! ## The claims -/

/-- Claim C1 (amended to `s < e`; `extract_frames` raises on `s ≥ e`): for every
start frame `s`, end frame `e` with `s < e` and stride `k ≥ 1`, `extract_frames`
attempts to save exactly the indices `{s, s+k, s+2k, ...} ∩ [s, e]` — the `i`
with `(i - s) mod k = 0` — and `total_frames_to_extract = (e - s) / k + 1`;
with every read and save succeeding, the run reports exactly that many
extracted frames and no failures. -/
theorem claim_C1 (s e k : ℕ) (hse : s < e) (hk : 1 ≤ k) :
    extract_frames s e k (fun _ => ReadOutcome.ok true)
        = Except.ok ⟨(e - s) / k + 1, (e - s) / k + 1, 0, s, e, k⟩
      ∧ attemptedSaves s e k = List.range' s ((e - s) / k + 1) k := by
  refine ⟨?_, attemptedSaves_eq s e k (by omega) hk⟩
  rw [extract_frames, if_neg (by omega : ¬ e ≤ s), extract_frames_core_counts]
  simp only [Except.ok.injEq, ExtractStats.mk.injEq, and_true]
  refine ⟨pyRangeLen_eq s e k (by omega) hk, ?_, ?_⟩
  · simpa using countP_selected s e k (by omega) hk
  · simp

/-- Claim C1 as frozen quantifies over `s ≤ e`, but at `s = e` (here `0 = 0`,
stride `1`) `extract_frames` raises instead of selecting frame `s` with a
planned count of `1`. -/
theorem claim_C1_counterexample :
    extract_frames 0 0 1 (fun _ => ReadOutcome.ok true) = Except.error "invalid_range"
      ∧ Except.error "invalid_range"
        ≠ Except.ok (⟨1, 1, 0, 0, 0, 1⟩ : ExtractStats) :=
  ⟨rfl, fun h => Except.noConfusion h⟩

/-- Claim C1 witnessed at `s = 0`, `e = 2`, `k = 2`. -/
theorem claim_C1_witness :
    extract_frames 0 2 2 (fun _ => ReadOutcome.ok true)
        = Except.ok ⟨(2 - 0) / 2 + 1, (2 - 0) / 2 + 1, 0, 0, 2, 2⟩
      ∧ attemptedSaves 0 2 2 = List.range' 0 ((2 - 0) / 2 + 1) 2 :=
  claim_C1 0 2 2 (by omega) (by omega)

/-- Claim C2 (amended): after a completed direct-backend run,
`extracted_count + failed_count` equals `total_frames_to_extract` plus the
number of read failures at NON-selected indices (the loop counts those as
failed although they were never planned); the claimed equality holds exactly
when every read failure falls on a selected index — in particular when every
read succeeds. -/
theorem claim_C2 (s e k : ℕ) (o : ℕ → ReadOutcome) (hse : s < e) (hk : 1 ≤ k) :
    (extract_frames_core s e k o).extracted_count + (extract_frames_core s e k o).failed_count
      = (extract_frames_core s e k o).total_frames_to_extract + readFailNonSelected s e k o := by
  rw [extract_frames_core_counts]
  simp only
  rw [pyRangeLen_eq s e k (by omega) hk, ← countP_selected s e k (by omega) hk,
    readFailNonSelected, ← List.countP_eq_length_filter]
  exact countP_saved_failed s k o (frameIdxList s e)

/-- Claim C2 as frozen fails when a read fails on a non-selected frame: with
`s = 0`, `e = 2`, `k = 2` and the read of frame 1 failing (saves succeeding),
the run returns `extracted_count = 2`, `failed_count = 1` against
`total_frames_to_extract = 2`, and `2 + 1 ≠ 2`. -/
theorem claim_C2_counterexample :
    extract_frames 0 2 2 (fun i => if i = 1 then ReadOutcome.fail else ReadOutcome.ok true)
        = Except.ok ⟨2, 2, 1, 0, 2, 2⟩
      ∧ 2 + 1 ≠ 2 := by
  exact ⟨rfl, by omega⟩

/-- Claim C2 witnessed at `s = 0`, `e = 2`, `k = 2` with the read of frame 1
failing. -/
theorem claim_C2_witness :
    (extract_frames_core 0 2 2
          (fun i => if i = 1 then ReadOutcome.fail else ReadOutcome.ok true)).extracted_count
        + (extract_frames_core 0 2 2
          (fun i => if i = 1 then ReadOutcome.fail else ReadOutcome.ok true)).failed_count
      = (extract_frames_core 0 2 2
          (fun i => if i = 1 then ReadOutcome.fail else ReadOutcome.ok true)).total_frames_to_extract
        + readFailNonSelected 0 2 2
          (fun i => if i = 1 then ReadOutcome.fail else ReadOutcome.ok true) :=
  claim_C2 0 2 2 (fun i => if i = 1 then ReadOutcome.fail else ReadOutcome.ok true)
    (by omega) (by omega)

/-- Claim C3 (amended): the label's colon form has FOUR fields
(`HH:MM:SS:mmm`) and `timestamp_to_frame` reads only the first three, so the
milliseconds are dropped: for `i ≥ 0` and `fps > 0` the round trip with
`total_frames = i + 1` returns `min ⌊⌊i/fps⌋ * fps⌋ i` — the clamped first
frame of the whole second containing frame `i` — which equals `i` only when
`i / fps` is a whole number of seconds. -/
theorem claim_C3 (i : ℕ) (fps : ℚ) (hfps : 0 < fps) :
    timestamp_to_frame fps ((i : ℤ) + 1) (colonForm (frame_to_timestamp fps (i : ℤ)))
      = min ⌊((⌊((i : ℤ) : ℚ) / fps⌋ : ℚ) * fps)⌋ (i : ℤ) := by
  have h := timestamp_roundtrip fps hfps (i : ℤ) (by positivity) ((i : ℤ) + 1)
  simpa using h

/-- Claim C3 as frozen fails at `i = 1`, `fps = 30`: the round trip returns
frame `0`, not `1` (the label is `00-00-00-033` and the `033` field is
ignored). -/
theorem claim_C3_counterexample :
    timestamp_to_frame 30 (1 + 1) (colonForm (frame_to_timestamp 30 1)) = 0
      ∧ (0 : ℤ) ≠ 1 := by
  exact ⟨by decide, by omega⟩

/-- Claim C3 witnessed at `i = 1`, `fps = 30`. -/
theorem claim_C3_witness :
    (0 : ℚ) < 30
      ∧ timestamp_to_frame 30 (((1 : ℕ) : ℤ) + 1)
          (colonForm (frame_to_timestamp 30 ((1 : ℕ) : ℤ)))
        = min ⌊((⌊(((1 : ℕ) : ℤ) : ℚ) / 30⌋ : ℚ) * 30)⌋ ((1 : ℕ) : ℤ) :=
  ⟨by norm_num, claim_C3 1 30 (by norm_num)⟩

/-- Claim C4 is a code bug: `CAP_PROP_POS_FRAMES` is the index of the frame to
be decoded NEXT, so after `diff - 1` grabs the final `read` decodes frame
`target - 1`, not `target`.  At cursor `0`, `fps = 25`, `seconds = 1/25` the
target is frame `1`; the small-forward-jump path is taken (`diff = 1 ≤ 50`)
and returns frame `0`, while the direct-seek path returns frame `1`. -/
theorem claim_C4_bug :
    targetFrame 25 (1 / 25) = 1
      ∧ (get_frame_at_seconds_fast 25 ⟨0⟩ (1 / 25)).1 = 0
      ∧ (capRead (capSeek (targetFrame 25 (1 / 25)) ⟨0⟩)).1 = 1 := by
  refine ⟨by decide, by decide, by decide⟩

/-- Claim C5 is a code bug for strides `k ≥ 2`: the numbered-sequence output
pattern counts kept frames consecutively from `start_frame`, so the `j`-th
selected frame (absolute index `s + j*k`) is written with ordinal `s + j`.
With `s = 0`, `k = 2`, sub-range frames `0..2`: the second file has ordinal
`1` but contains frame `2`, and the rename gives it `frame_to_timestamp 1 =
"00-00-00-033"` instead of frame 2's label `"00-00-00-066"`. -/
theorem claim_C5_bug :
    ffmpeg_produced_files 0 2 2 = [(0, 0), (1, 2)]
      ∧ ffmpeg_renamed_files 30 0 2 2 = [("00-00-00-000", 0), ("00-00-00-033", 2)]
      ∧ frame_to_timestamp 30 2 = "00-00-00-066" := by
  refine ⟨by decide, by decide, by decide⟩

/-- Claim C6: for every timestamp whose normalised split yields at least three
parts parsing as integers `hrs`, `mins` and a float `secs` (all nonnegative, as
every well-formed timestamp's parts are — the `'-' ↦ ':'` replacement destroys
any minus sign), with `fps > 0` and `total_frames ≥ 1`, `timestamp_to_frame`
returns `⌊(hrs*3600 + mins*60 + secs) * fps⌋` clamped to `[0, total - 1]`. -/
theorem claim_C6 (ts : String) (fps : ℚ) (total : ℤ) (p0 p1 p2 : List Char)
    (rest : List (List Char)) (hrs mins : ℤ) (secs : ℚ)
    (hfps : 0 < fps) (htot : 1 ≤ total)
    (hsplit : splitOnChar ':' (ts.data.map normChar) = p0 :: p1 :: p2 :: rest)
    (h0 : pyParseInt p0 = some hrs) (h1 : pyParseInt p1 = some mins)
    (h2 : pyParseFloat p2 = some secs)
    (hh : 0 ≤ hrs) (hm : 0 ≤ mins) (hs : 0 ≤ secs) :
    timestamp_to_frame fps total ts
      = max 0 (min ⌊((hrs : ℚ) * 3600 + (mins : ℚ) * 60 + secs) * fps⌋ (total - 1)) := by
  have h3 : (0 : ℚ) ≤ (hrs : ℚ) := by exact_mod_cast hh
  have h4 : (0 : ℚ) ≤ (mins : ℚ) := by exact_mod_cast hm
  have harg : 0 ≤ ((hrs : ℚ) * 3600 + (mins : ℚ) * 60 + secs) * fps :=
    mul_nonneg (by linarith) hfps.le
  rw [timestamp_to_frame, hsplit]
  simp only [h0, h1, h2]
  rw [pyTrunc_of_nonneg _ harg]
  have hfl : (0 : ℤ) ≤ ⌊((hrs : ℚ) * 3600 + (mins : ℚ) * 60 + secs) * fps⌋ :=
    Int.floor_nonneg.mpr harg
  rw [max_eq_right (le_min hfl (by omega))]

/-- Claim C6 witnessed at `"01:02:03"`, `fps = 30`, `total = 10 ^ 6`. -/
theorem claim_C6_witness :
    timestamp_to_frame 30 1000000 "01:02:03"
      = max 0 (min ⌊(((1 : ℤ) : ℚ) * 3600 + ((2 : ℤ) : ℚ) * 60 + 3) * 30⌋ (1000000 - 1)) :=
  claim_C6 "01:02:03" 30 1000000 ['0', '1'] ['0', '2'] ['0', '3'] [] 1 2 3
    (by norm_num) (by norm_num) (by decide) (by decide) (by decide) (by decide)
    (by decide) (by decide) (by norm_num)

/-- Claim C7 (amended): a timestamp whose normalised split has FEWER than
three parts, or whose first three parts are not all numeric, yields frame 0
without an error; a string with MORE than three parts is not rejected — its
first three parts are used and the rest ignored. -/
theorem claim_C7 (ts : String) (fps : ℚ) (total : ℤ) :
    ((splitOnChar ':' (ts.data.map normChar)).length < 3 →
        timestamp_to_frame fps total ts = 0)
      ∧ (∀ p0 p1 p2 rest,
          splitOnChar ':' (ts.data.map normChar) = p0 :: p1 :: p2 :: rest →
          (pyParseInt p0 = none ∨ pyParseInt p1 = none ∨ pyParseFloat p2 = none) →
          timestamp_to_frame fps total ts = 0) := by
  constructor
  · intro hlen
    rcases hsp : splitOnChar ':' (ts.data.map normChar) with _ | ⟨a, _ | ⟨b, _ | ⟨c, r⟩⟩⟩
    · simp [timestamp_to_frame, hsp]
    · simp [timestamp_to_frame, hsp]
    · simp [timestamp_to_frame, hsp]
    · rw [hsp] at hlen
      simp only [List.length_cons] at hlen
      omega
  · intro p0 p1 p2 rest hsp hnone
    rw [timestamp_to_frame, hsp]
    rcases hp0 : pyParseInt p0 with _ | v0 <;>
      rcases hp1 : pyParseInt p1 with _ | v1 <;>
        rcases hp2 : pyParseFloat p2 with _ | v2 <;>
          simp_all

/-- Claim C7 as frozen says every wrong part count yields 0, but a FOUR-part
timestamp is accepted: with `fps = 30`, `total_frames = 100`, the string
`"0:0:1:9"` parses as one second and returns frame 30, not 0. -/
theorem claim_C7_counterexample :
    timestamp_to_frame 30 100 "0:0:1:9" = 30 ∧ (30 : ℤ) ≠ 0 := by
  refine ⟨by decide, by omega⟩

/-- Claim C7 witnessed on a two-part string and a non-numeric-hours string. -/
theorem claim_C7_witness :
    timestamp_to_frame 30 100 "00:00" = 0 ∧ timestamp_to_frame 30 100 "aa:00:00" = 0 := by
  constructor
  · exact (claim_C7 "00:00" 30 100).1 (by decide)
  · exact (claim_C7 "aa:00:00" 30 100).2 ['a', 'a'] ['0', '0'] ['0', '0'] []
      (by decide) (Or.inl (by decide))

/-- Claim C8: with backend `"auto"`, the call behaves exactly as if the
backend resolved once from the availability check — `"ffmpeg"` when the
external executable is discoverable and `"opencv"` otherwise — and the
backend that produced the result is that resolved one (in this sequential
model the availability input is fixed for the call, so the choice cannot
change during it). -/
theorem claim_C8 (avail : Bool) (s e k : ℕ) (o : ℕ → ReadOutcome) (hse : s < e) :
    extract_frames_backend "auto" avail s e k o
        = extract_frames_backend (if avail then "ffmpeg" else "opencv") avail s e k o
      ∧ Except.map Prod.fst (extract_frames_backend "auto" avail s e k o)
        = Except.ok (if avail then "ffmpeg" else "opencv") := by
  have hg : ¬ e ≤ s := by omega
  cases avail <;> simp [extract_frames_backend, chosen_backend, hg, Except.map]

/-- Claim C8 witnessed with ffmpeg available, `s = 0`, `e = 1`, `k = 1`. -/
theorem claim_C8_witness :
    extract_frames_backend "auto" true 0 1 1 (fun _ => ReadOutcome.ok true)
        = extract_frames_backend (if true then "ffmpeg" else "opencv") true 0 1 1
          (fun _ => ReadOutcome.ok true)
      ∧ Except.map Prod.fst (extract_frames_backend "auto" true 0 1 1
          (fun _ => ReadOutcome.ok true))
        = Except.ok (if true then "ffmpeg" else "opencv") :=
  claim_C8 true 0 1 1 (fun _ => ReadOutcome.ok true) (by omega)

/-- Claim C9: `validate_time_format` returns `true` exactly on strings with
three colon- or hyphen-delimited numeric parts `h : m : s` with `0 ≤ h ≤ 23`,
`0 ≤ m ≤ 59`, `0 ≤ s < 60`, and decides the spec's five examples as stated. -/
theorem claim_C9 :
    (∀ ts : String, validate_time_format ts = true ↔ valid_time_spec ts)
      ∧ validate_time_format "01:02:03" = true
      ∧ validate_time_format "23:59:59.999" = true
      ∧ validate_time_format "24:00:00" = false
      ∧ validate_time_format "01:60:00" = false
      ∧ validate_time_format "bad:input" = false := by
  refine ⟨?_, by decide, by decide, by decide, by decide, by decide⟩
  intro ts
  constructor
  · intro hv
    rw [validate_time_format] at hv
    split at hv
    · rename_i p0 p1 p2 hsp
      split at hv
      · rename_i h m s h0 h1 h2
        simp only [Bool.and_eq_true, decide_eq_true_eq] at hv
        exact ⟨p0, p1, p2, h, m, s, hsp, h0, h1, h2,
          hv.1.1.1.1.1, hv.1.1.1.1.2, hv.1.1.1.2, hv.1.1.2, hv.1.2, hv.2⟩
      · exact absurd hv (by simp)
    · exact absurd hv (by simp)
  · rintro ⟨p0, p1, p2, h, m, s, hsp, h0, h1, h2, hh0, hh23, hm0, hm59, hs0, hs60⟩
    rw [validate_time_format, hsp]
    simp only [h0, h1, h2]
    simp [hh0, hh23, hm0, hm59, hs0, hs60]

/-- Claim C10 (amended to nonempty formats): for a NONEMPTY format whose
lowercase form is none of png/jpg/jpeg/webp, the direct backend encodes the
frame as PNG while the filename still carries the requested format
(lowercased) as its extension, and the save is reported as a success, not an
error.  The empty string must be excluded: its lowercase form is also outside
the known set, but `output_format or 'png'` replaces it by `"png"`, so there
the filename's extension is `"png"`, not the requested string. -/
theorem claim_C10 (fmt : String) (fps : ℚ) (i : ℤ)
    (hfmt : strLower fmt ∉ (["png", "jpg", "jpeg", "webp"] : List String))
    (hne : fmt ≠ "") :
    save_and_report_format (outputExt fmt) = "PNG"
      ∧ frameFilename fps fmt i = frame_to_timestamp fps i ++ "." ++ strLower fmt := by
  have hext : outputExt fmt = strLower fmt := by rw [outputExt, if_neg hne]
  simp only [List.mem_cons, List.not_mem_nil, or_false, not_or] at hfmt
  obtain ⟨hp, hj, hj2, hw⟩ := hfmt
  refine ⟨?_, by rw [frameFilename, hext]⟩
  rw [save_and_report_format, hext, if_neg hp, if_neg (by tauto), if_neg hw]

/-- Claim C10 as frozen fails at `output_format = ""`: the empty string's
lowercase form is not one of png/jpg/jpeg/webp, so the claim applies to it and
asserts the filename carries `""` as its extension; but the code's
`(output_format or 'png')` fallback makes the extension `"png"` — the
produced filename differs from the claimed one. -/
theorem claim_C10_counterexample :
    strLower "" ∉ (["png", "jpg", "jpeg", "webp"] : List String)
      ∧ outputExt "" = "png"
      ∧ frameFilename 30 "" 0 = frame_to_timestamp 30 0 ++ "." ++ "png"
      ∧ frameFilename 30 "" 0 ≠ frame_to_timestamp 30 0 ++ "." ++ strLower "" := by
  refine ⟨by decide, by decide, by decide, by decide⟩

/-- Claim C10 witnessed at format `"bmp"`, `fps = 30`, frame `0`. -/
theorem claim_C10_witness :
    save_and_report_format (outputExt "bmp") = "PNG"
      ∧ frameFilename 30 "bmp" 0 = frame_to_timestamp 30 0 ++ "." ++ strLower "bmp" :=
  claim_C10 "bmp" 30 0 (by decide) (by decide)

end FrameExtract
